import Mathlib

/-!
Verification of `resnet_act_utils.py` from the `sact` repository (ResNet with
adaptive computation time).  The TensorFlow graph-construction code is shallowly
embedded: tensors are rank-polymorphic arrays of rationals, the external
TensorFlow/slim operations with learned variables (batch normalization,
convolutions, moment computation) are fields of an abstract environment, and
the pure tensor manipulations (spatial mean pooling, squeezing, broadcasting,
concatenation, nearest-neighbor resizing, slicing) are given concrete
executable definitions.
-/

set_option autoImplicit false

/-- A tensor: a shape (list of dimension sizes) together with the entries,
indexed by coordinate lists.  Entries outside the shape are irrelevant junk. -/
structure Tensor where
  shape : List ℕ
  data : List ℕ → ℚ

/-- The junk tensor, used where the Python code would raise a shape error. -/
def tJunk : Tensor := ⟨[], fun _ => 0⟩

/-- All coordinate tuples of a given shape, in lexicographic order. -/
def allIdx : List ℕ → List (List ℕ)
  | [] => [[]]
  | d :: ds => (List.range d).flatMap (fun i => (allIdx ds).map (fun r => i :: r))

/-- Sum of all in-range entries of a tensor. -/
def sumEntries (t : Tensor) : ℚ :=
  ((allIdx t.shape).map t.data).sum

/-- Number of entries of a tensor. -/
def numel (t : Tensor) : ℕ := t.shape.prod

/-- `tf.reduce_mean` over every dimension: the mean of all entries. -/
def tmean (t : Tensor) : ℚ := sumEntries t / (numel t : ℚ)

/-- Elementwise map over a tensor. -/
def tmap (f : ℚ → ℚ) (t : Tensor) : Tensor :=
  ⟨t.shape, fun i => f (t.data i)⟩

/-- Elementwise combination of two same-shaped tensors (shape of the first). -/
def tzip (f : ℚ → ℚ → ℚ) (a b : Tensor) : Tensor :=
  ⟨a.shape, fun i => f (a.data i) (b.data i)⟩

/-- An all-zero tensor of the given shape (`tf.zeros`). -/
def zerosT (sh : List ℕ) : Tensor := ⟨sh, fun _ => 0⟩

/-- Minimum of a list of rationals (junk 0 on the empty list). -/
def listMin (l : List ℚ) : ℚ := l.foldl min (l.headD 0)

/-- Maximum of a list of rationals (junk 0 on the empty list). -/
def listMax (l : List ℚ) : ℚ := l.foldl max (l.headD 0)

/-- `tf.reduce_mean(x, [1, 2], keep_dims=True)` on a rank-4 tensor: spatial
average pooling to 1x1. -/
def reduceMeanSpatialKeep (t : Tensor) : Tensor :=
  match t.shape with
  | [b, h, w, c] =>
    ⟨[b, 1, 1, c], fun idx =>
      match idx with
      | [n, _, _, ch] =>
        (((List.range h).map (fun y =>
          ((List.range w).map (fun x => t.data [n, y, x, ch])).sum)).sum) / ((h * w : ℕ) : ℚ)
      | _ => 0⟩
  | _ => tJunk

/-- `tf.squeeze(x, [1, 2])` on a rank-4 tensor whose spatial dims are 1. -/
def squeeze12 (t : Tensor) : Tensor :=
  match t.shape with
  | [b, _, _, c] =>
    ⟨[b, c], fun idx =>
      match idx with
      | [n, ch] => t.data [n, 0, 0, ch]
      | _ => 0⟩
  | _ => tJunk

/-- Addition of a rank-4 tensor with a spatially 1x1 tensor, broadcasting over
the spatial dimensions. -/
def addBroadcastSpatial (a b : Tensor) : Tensor :=
  ⟨a.shape, fun idx =>
    match idx with
    | [n, y, x, ch] => a.data [n, y, x, ch] + b.data [n, 0, 0, ch]
    | _ => 0⟩

/-- `x[:n]`: restrict the batch (first) dimension to at most `n`. -/
def sliceBatch (n : ℕ) (t : Tensor) : Tensor :=
  ⟨match t.shape with
    | [] => []
    | b :: rest => min n b :: rest,
   t.data⟩

/-- `tf.expand_dims(x, 3)` on a rank-3 tensor. -/
def expandDims3 (t : Tensor) : Tensor :=
  ⟨t.shape ++ [1], fun idx => t.data idx.dropLast⟩

/-- `tf.image.resize_nearest_neighbor(x, resolution, align_corners=False)`. -/
def resizeNN (t : Tensor) (resolution : List ℕ) : Tensor :=
  match t.shape, resolution with
  | [b, h, w, c], [rh, rw] =>
    ⟨[b, rh, rw, c], fun idx =>
      match idx with
      | [n, y, x, ch] => t.data [n, y * h / rh, x * w / rw, ch]
      | _ => 0⟩
  | _, _ => tJunk

/-- `tf.concat([a, b], 2)`: concatenation of two rank-4 tensors along width. -/
def concatWidth (a b : Tensor) : Tensor :=
  match a.shape, b.shape with
  | [n, h, w1, c], [_, _, w2, _] =>
    ⟨[n, h, w1 + w2, c], fun idx =>
      match idx with
      | [i, y, x, ch] =>
        if x < w1 then a.data [i, y, x, ch] else b.data [i, y, x - w1, ch]
      | _ => 0⟩
  | _, _ => tJunk

/-- `tf.concat([a, b], 3)`: concatenation of two rank-4 tensors along channels. -/
def concatChannels (a b : Tensor) : Tensor :=
  match a.shape, b.shape with
  | [n, h, w, c1], [_, _, _, c2] =>
    ⟨[n, h, w, c1 + c2], fun idx =>
      match idx with
      | [i, y, x, ch] =>
        if ch < c1 then a.data [i, y, x, ch] else b.data [i, y, x, ch - c1]
      | _ => 0⟩
  | _, _ => tJunk

/-- `tf.add_n`: sum of a list of same-shaped tensors. -/
def addN (l : List Tensor) : Tensor :=
  match l with
  | [] => tJunk
  | t :: rest => rest.foldl (tzip (fun a b => a + b)) t

/-- Normalization of a batch of images as done in `sact_image_heatmap`:
subtract the per-image minimum over all non-batch dimensions, then divide by
the per-image maximum of the result.  Shape-preserving. -/
def normalizeImages (t : Tensor) : Tensor :=
  let m := fun n => listMin ((allIdx (t.shape.drop 1)).map (fun i => t.data (n :: i)))
  let t1 : Tensor := ⟨t.shape, fun idx => t.data idx - m (idx.headD 0)⟩
  let mx := fun n => listMax ((allIdx (t1.shape.drop 1)).map (fun i => t1.data (n :: i)))
  ⟨t1.shape, fun idx => t1.data idx / mx (idx.headD 0)⟩

/-- Activation function argument of a slim convolution (only `None` and
`tf.nn.sigmoid` occur in the source). -/
inductive ConvActivation where
  | noneFn
  | sigmoidFn
deriving DecidableEq

/-- The structural arguments passed to `flopsometer.conv2d`: output channel
count, kernel size, activation, bias initializer (`none` models
`biases_initializer=None`, i.e. a bias-free convolution), and variable scope. -/
structure ConvParams where
  numOutputs : ℕ
  kernelSize : ℕ
  activationFn : ConvActivation
  biasInit : Option ℚ
  scopeName : String

/-- Modelled from the spec: the environment of external collaborators.
`flopsometer` (the FLOP-counting convolution wrapper) and the learned-variable
operations of TensorFlow/slim are not part of `src/`; the spec treats them as
opaque capabilities returning an output tensor plus a FLOP count, keyed by the
structural parameters and the enclosing variable scope. -/
structure TFEnv where
  batch_norm : String → Tensor → Tensor
  conv2d : ConvParams → Option Tensor → Tensor → Tensor × ℚ
  sigmoid : ℚ → ℚ
  sqrtQ : ℚ → ℚ
  moments : Tensor → Option ℚ → ℚ × ℚ

def SACT_KERNEL_SIZE : ℕ := 3

def INIT_BIAS : ℚ := -3

/-- `get_halting_proba` from `resnet_act_utils.py`: the global (ACT) halting
probability estimator. -/
def get_halting_proba (env : TFEnv) (outputs : Tensor) : Tensor × ℚ :=
  let x := outputs
  let x := reduceMeanSpatialKeep x
  let x := env.batch_norm "global_bn" x
  let r := env.conv2d
    ⟨1, 1, ConvActivation.sigmoidFn, some INIT_BIAS, "global_conv"⟩ none x
  (squeeze12 r.1, r.2)

/-- `get_halting_proba_conv` from `resnet_act_utils.py`: the convolutional
(SACT) halting probability estimator. -/
def get_halting_proba_conv (env : TFEnv) (outputs : Tensor)
    (residual_mask : Option Tensor) : Tensor × ℚ :=
  let flops : ℚ := 0
  let x := outputs
  let local_feature := env.batch_norm "local_bn" x
  let r1 := env.conv2d
    ⟨1, SACT_KERNEL_SIZE, ConvActivation.noneFn, some INIT_BIAS, "local_conv"⟩
    residual_mask local_feature
  let halting_logit := r1.1
  let flops := flops + r1.2
  let global_feature := reduceMeanSpatialKeep x
  let global_feature := env.batch_norm "global_bn" global_feature
  let r2 := env.conv2d
    ⟨1, 1, ConvActivation.noneFn, none, "global_conv"⟩ none global_feature
  let halting_logit_global := r2.1
  let flops := flops + r2.2
  let halting_logit := addBroadcastSpatial halting_logit halting_logit_global
  let halting_proba := tmap env.sigmoid halting_logit
  (halting_proba, flops)

/-- A block: a scope name, the ordered unit argument tuples (abstracted to
natural-number tags), and the unit computation capability
`unit_fn(inputs, args, residual_mask) -> (outputs, flops)`. -/
structure Block where
  scope : String
  args : List ℕ
  unit_fn : Tensor → ℕ → Option Tensor → Tensor × ℚ

/-- `unit_act` from `resnet_act_utils.py`: runs one unit and, unless it is the
last unit of the block or halting is skipped, the halting-probability
estimator selected by `sact`. -/
def unit_act (env : TFEnv) (block : Block) (inputs : Tensor) (unit_idx : ℕ)
    (skip_halting_proba : Bool) (sact : Bool) (residual_mask : Option Tensor) :
    Tensor × Option Tensor × ℚ :=
  let r := block.unit_fn inputs (block.args.getD unit_idx 0) residual_mask
  let outputs := r.1
  let flops := r.2
  if skip_halting_proba = false ∧ unit_idx < block.args.length - 1 then
    if sact then
      let h := get_halting_proba_conv env outputs none
      (outputs, some h.1, flops + h.2)
    else
      let h := get_halting_proba env outputs
      (outputs, some h.1, flops + h.2)
  else
    (outputs, none, flops)

/-- A value stored in the end-points mapping: a FLOP count, a tensor, a list
of scope names, or a list of unit counts. -/
inductive EPVal where
  | num (q : ℚ)
  | tensor (t : Tensor)
  | strs (l : List String)
  | nats (l : List ℕ)

/-- The end-points mapping: an insertion-ordered string-keyed dictionary. -/
def EndPoints : Type := List (String × EPVal)

/-- Python dictionary assignment `d[k] = v`: replace the binding in place if
the key is present, otherwise append it. -/
def setEP : EndPoints → String → EPVal → EndPoints
  | [], k, v => [(k, v)]
  | (k', v') :: rest, k, v =>
    if k' = k then (k, v) :: rest else (k', v') :: setEP rest k v

/-- Read a tensor-valued end-point (junk if absent or of another kind). -/
def epTensor (eps : EndPoints) (k : String) : Tensor :=
  match List.lookup k eps with
  | some (EPVal.tensor t) => t
  | _ => tJunk

/-- Read the ordered list of block scope names from `end_points`. -/
def epScopes (eps : EndPoints) : List String :=
  match List.lookup "block_scopes" eps with
  | some (EPVal.strs l) => l
  | _ => []

/-- Read a list-of-naturals end-point (empty if absent or of another kind). -/
def epNats (eps : EndPoints) (k : String) : List ℕ :=
  match List.lookup k eps with
  | some (EPVal.nats l) => l
  | _ => []

/-- `end_points.get('flops', 0)`: the current FLOP total, defaulting to 0. -/
def epGetFlops (eps : EndPoints) : ℚ :=
  match List.lookup "flops" eps with
  | some (EPVal.num q) => q
  | _ => 0

/-- `add_all_ponder_costs` from `resnet_act_utils.py`: accumulates the mean
ponder cost of every block scope and adds one weighted value to the loss
collection (`tf.losses.add_loss` modelled as appending to the list). -/
def add_all_ponder_costs (eps : EndPoints) (weights : ℚ) (losses : List ℚ) :
    List ℚ :=
  let total_ponder_cost :=
    (epScopes eps).foldl
      (fun acc scope => acc + tmean (epTensor eps (scope ++ "/ponder_cost"))) 0
  losses ++ [total_ponder_cost * weights]

/-- `moments_metric_map` from `resnet_act_utils.py` (the summary-histogram
side effect is dropped): computes mean and variance via the external
`tf.nn.moments` and reports `{name}{delimiter}mean` and
`{name}{delimiter}std`, the latter as the square root of the clamped
variance. -/
def moments_metric_map (env : TFEnv) (x : Tensor) (name delimiter : String)
    (do_shift : Bool) : List (String × ℚ) :=
  let shift : Option ℚ := if do_shift then some (tmean x) else none
  let mv := env.moments x shift
  [(name ++ delimiter ++ "mean", mv.1),
   (name ++ delimiter ++ "std", env.sqrtQ (max 0 mv.2))]

/-- The tuple returned by the adaptive computation controllers of the `act`
module: `(ponder_cost, num_units, flops, halting_distribution, net)`. -/
structure ActOut where
  ponder_cost : Tensor
  num_units : Tensor
  flops : ℚ
  halting_distribution : Tensor
  net : Tensor

/-- The shape of the per-unit callable handed to a controller:
`partial(unit_act, block, sact=sact)` applied to
`(inputs, unit_idx, skip_halting_proba, residual_mask)`. -/
def UnitFn : Type :=
  Tensor → ℕ → Bool → Option Tensor → Tensor × Option Tensor × ℚ

/-- Modelled from the spec: the `act` module (the adaptive computation
controllers `spatially_adaptive_computation_time`,
`adaptive_computation_early_stopping` and
`adaptive_computation_time_wrapper`) is code of this repository that is not
under `src/`.  The spec describes each controller as consuming the input
tensor, the unit callable, the unit count and the block scope, and producing
ponder cost, executed-unit count, FLOPs, halting distribution and the block
output; we model the three entry points as opaque capabilities with exactly
that interface. -/
structure ActModule where
  spatially_adaptive_computation_time : Tensor → UnitFn → ℕ → String → ActOut
  adaptive_computation_early_stopping : Tensor → UnitFn → ℕ → String → ActOut
  adaptive_computation_time_wrapper : Tensor → UnitFn → ℕ → String → ActOut

/-- The controller selected by `stack_blocks` for the given flags. -/
def act_fn_select (actm : ActModule) (act_early_stopping sact : Bool) :
    Tensor → UnitFn → ℕ → String → ActOut :=
  if sact then actm.spatially_adaptive_computation_time
  else if act_early_stopping then actm.adaptive_computation_early_stopping
  else actm.adaptive_computation_time_wrapper

/-- `partial(unit_act, block, sact=sact)`. -/
def unitFnOf (env : TFEnv) (block : Block) (sact : Bool) : UnitFn :=
  fun inputs idx skip rmask => unit_act env block inputs idx skip sact rmask

/-- The per-block loop of `stack_blocks`. -/
def stack_blocks_loop (env : TFEnv) (actm : ActModule)
    (use_act act_early_stopping sact : Bool) :
    Tensor → List Block → EndPoints → Tensor × EndPoints
  | net, [], eps => (net, eps)
  | net, block :: rest, eps =>
    if use_act then
      let r := act_fn_select actm act_early_stopping sact net
        (unitFnOf env block sact) block.args.length block.scope
      let eps := setEP eps (block.scope ++ "/ponder_cost") (EPVal.tensor r.ponder_cost)
      let eps := setEP eps (block.scope ++ "/num_units") (EPVal.tensor r.num_units)
      let eps := setEP eps (block.scope ++ "/halting_distribution")
        (EPVal.tensor r.halting_distribution)
      let eps := setEP eps (block.scope ++ "/flops") (EPVal.num r.flops)
      let eps := setEP eps "flops" (EPVal.num (epGetFlops eps + r.flops))
      let eps := setEP eps block.scope (EPVal.tensor r.net)
      stack_blocks_loop env actm use_act act_early_stopping sact r.net rest eps
    else
      let r := (List.range block.args.length).foldl
        (fun (p : Tensor × ℚ) i =>
          let u := unit_act env block p.1 i true false none
          (u.1, p.2 + u.2.2)) (net, 0)
      let eps := setEP eps (block.scope ++ "/flops") (EPVal.num r.2)
      let eps := setEP eps "flops" (EPVal.num (epGetFlops eps + r.2))
      let eps := setEP eps block.scope (EPVal.tensor r.1)
      stack_blocks_loop env actm use_act act_early_stopping sact r.1 rest eps

/-- `stack_blocks` from `resnet_act_utils.py`. -/
def stack_blocks (env : TFEnv) (actm : ActModule) (net : Tensor)
    (blocks : List Block) (use_act act_early_stopping sact : Bool)
    (end_points0 : Option EndPoints) : Tensor × EndPoints :=
  let eps := end_points0.getD []
  let eps := setEP eps "flops" (EPVal.num (epGetFlops eps))
  let eps := setEP eps "block_scopes" (EPVal.strs (blocks.map Block.scope))
  let eps := setEP eps "block_num_units"
    (EPVal.nats (blocks.map (fun b => b.args.length)))
  stack_blocks_loop env actm use_act act_early_stopping sact net blocks eps

/-- Written from the spec (Halting-Probability Estimator, global variant):
spatially average-pool the activation to 1x1, normalize, apply a 1x1
convolution with output channel 1 and a sigmoid activation, bias initialized
to the constant -3; return the probability together with the FLOP cost of
the convolution. -/
def specGlobalHaltingProba (env : TFEnv) (activation : Tensor) : Tensor × ℚ :=
  let pooled := reduceMeanSpatialKeep activation
  let normalized := env.batch_norm "global_bn" pooled
  let convr := env.conv2d
    ⟨1, 1, ConvActivation.sigmoidFn, some (-3), "global_conv"⟩ none normalized
  (squeeze12 convr.1, convr.2)

/-- Written from the spec (Halting-Probability Estimator, convolutional SACT
variant): a local halting logit from a kernel-size-3 convolution over
batch-normalized local features with bias initialized to -3 and the residual
mask as output mask; a global halting logit from global average pooling,
batch normalization and a bias-free 1x1 convolution; the two logits summed
with broadcasting over the spatial dimensions, followed by a sigmoid; the
returned FLOPs are the total cost of the two convolutions. -/
def specConvHaltingProba (env : TFEnv) (activation : Tensor)
    (residual_mask : Option Tensor) : Tensor × ℚ :=
  let localNormalized := env.batch_norm "local_bn" activation
  let localConv := env.conv2d
    ⟨1, 3, ConvActivation.noneFn, some (-3), "local_conv"⟩
    residual_mask localNormalized
  let globalPooled := reduceMeanSpatialKeep activation
  let globalNormalized := env.batch_norm "global_bn" globalPooled
  let globalConv := env.conv2d
    ⟨1, 1, ConvActivation.noneFn, none, "global_conv"⟩ none globalNormalized
  (tmap env.sigmoid (addBroadcastSpatial localConv.1 globalConv.1),
   localConv.2 + globalConv.2)

/-- Written from the spec (Block Assembler, static fallback): run every unit
of the block unconditionally in sequence, summing FLOPs; the unit is invoked
directly, so no halting probability is ever computed. -/
def staticBlockRun (b : Block) (net : Tensor) : Tensor × ℚ :=
  (List.range b.args.length).foldl
    (fun (p : Tensor × ℚ) i =>
      let r := b.unit_fn p.1 (b.args.getD i 0) none
      (r.1, p.2 + r.2)) (net, 0)

/-- Written from the spec (Block Assembler, static mode): for each block in
order, run every unit unconditionally in sequence, record the block's summed
FLOPs under `scope/flops`, add them to the running total, record the block
output under the scope key, and thread the output to the next block. -/
def staticStack : Tensor → List Block → EndPoints → Tensor × EndPoints
  | net, [], eps => (net, eps)
  | net, b :: rest, eps =>
    let r := staticBlockRun b net
    let eps := setEP eps (b.scope ++ "/flops") (EPVal.num r.2)
    let eps := setEP eps "flops" (EPVal.num (epGetFlops eps + r.2))
    let eps := setEP eps b.scope (EPVal.tensor r.1)
    staticStack r.1 rest eps

/-- Written from the spec (Block Assembler, adaptive mode): each block's
output, produced by the selected controller, is threaded as the next block's
input. -/
def actThread (env : TFEnv) (actm : ActModule) (act_early_stopping sact : Bool) :
    Tensor → List Block → Tensor
  | net, [] => net
  | net, b :: rest =>
    actThread env actm act_early_stopping sact
      (act_fn_select actm act_early_stopping sact net
        (unitFnOf env b sact) b.args.length b.scope).net rest

/-- Written from the spec (Block Assembler, adaptive mode): the FLOP counts
reported by the controller for each block, in block order, with each block's
output threaded to the next. -/
def actFlopsList (env : TFEnv) (actm : ActModule)
    (act_early_stopping sact : Bool) :
    Tensor → List Block → List ℚ
  | _, [] => []
  | net, b :: rest =>
    let r := act_fn_select actm act_early_stopping sact net
      (unitFnOf env b sact) b.args.length b.scope
    r.flops :: actFlopsList env actm act_early_stopping sact r.net rest

/-- The input images of `sact_image_heatmap`: the `inputs` end-point, sliced
to the first `num_images` images when given, optionally normalized. -/
def heatmapImages (eps : EndPoints) (num_images : Option ℕ)
    (normalize_images : Bool) : Tensor :=
  let images := epTensor eps "inputs"
  let images := match num_images with
    | some n => sliceBatch n images
    | none => images
  if normalize_images then normalizeImages images else images

/-- `max_value` in `sact_image_heatmap`: the sum of the per-block unit
counts, plus the number of blocks for the ponder-cost metric. -/
def heatmapMaxValue (eps : EndPoints) (metric_name : String) : ℚ :=
  let units := epNats eps "block_num_units"
  ((units.map (fun k => (k : ℚ))).sum) +
    (if metric_name = "ponder_cost" then (units.length : ℚ) else 0)

/-- One block's heatmap in `sact_image_heatmap`: the metric map, sliced to
the first `n` images, expanded to rank 4, nearest-neighbor-resized to the
image resolution, and padded with two zero channels (heatmap in red). -/
def heatmapFor (eps : EndPoints) (metric_name : String) (n : ℕ)
    (resolution : List ℕ) (scope : String) : Tensor :=
  let h := epTensor eps (scope ++ "/" ++ metric_name)
  let h := sliceBatch n h
  let h := expandDims3 h
  let h := resizeNN h resolution
  concatChannels h (zerosT [n, resolution.headD 0, resolution.getD 1 0, 2])

/-- `num_images` as used inside `sact_image_heatmap`: the argument when
given, otherwise the batch size of the input images. -/
def heatmapNumImages (eps : EndPoints) (num_images : Option ℕ) : ℕ :=
  match num_images with
  | some k => k
  | none => (epTensor eps "inputs").shape.headD 0

/-- `resolution = tf.shape(images)[1:3]` inside `sact_image_heatmap`. -/
def heatmapResolution (eps : EndPoints) (num_images : Option ℕ)
    (normalize_images : Bool) : List ℕ :=
  ((heatmapImages eps num_images normalize_images).shape.drop 1).take 2

/-- The tensor built by `sact_image_heatmap` for a valid metric name: the
(optionally normalized) images, a zero border of the given width, and the
images overlaid with the resized heatmaps, concatenated along width. -/
def sact_image_heatmap_body (eps : EndPoints) (metric_name : String)
    (num_images : Option ℕ) (alpha : ℚ) (border : ℕ)
    (normalize_images : Bool) : Tensor :=
  concatWidth (heatmapImages eps num_images normalize_images)
    (concatWidth
      (zerosT [heatmapNumImages eps num_images,
        (heatmapResolution eps num_images normalize_images).headD 0, border, 3])
      (tzip
        (fun a b => a * (1 - alpha) +
          b * (alpha / heatmapMaxValue eps metric_name))
        (heatmapImages eps num_images normalize_images)
        (addN ((epScopes eps).map
          (heatmapFor eps metric_name (heatmapNumImages eps num_images)
            (heatmapResolution eps num_images normalize_images))))))

/-- `sact_image_heatmap` from `resnet_act_utils.py`.  The leading `assert`
is modelled by returning `Except.error` for an invalid metric name before
anything is read from `end_points`. -/
def sact_image_heatmap (eps : EndPoints) (metric_name : String)
    (num_images : Option ℕ) (alpha : ℚ) (border : ℕ)
    (normalize_images : Bool) : Except String Tensor :=
  if metric_name = "ponder_cost" ∨ metric_name = "num_units" then
    Except.ok
      (sact_image_heatmap_body eps metric_name num_images alpha border
        normalize_images)
  else
    Except.error "metric_name must be ponder_cost or num_units"

/-- The body of `sact_map` (after its `assert`): the per-block metric maps,
expanded to rank 4, resized to the input resolution and summed. -/
def sact_map_core (eps : EndPoints) (metric_name : String) : Tensor :=
  let inputs := epTensor eps "inputs"
  let resolution := (inputs.shape.drop 1).take 2
  addN ((epScopes eps).map (fun scope =>
    resizeNN (expandDims3 (epTensor eps (scope ++ "/" ++ metric_name)))
      resolution))

/-- `sact_map` from `resnet_act_utils.py`; the leading `assert` is modelled
by `Except.error` for an invalid metric name. -/
def sact_map (eps : EndPoints) (metric_name : String) : Except String Tensor :=
  if metric_name = "ponder_cost" ∨ metric_name = "num_units" then
    Except.ok (sact_map_core eps metric_name)
  else
    Except.error "metric_name must be ponder_cost or num_units"

/-- The keys of `keys_to_tensors` in `export_to_h5`: four per block scope,
then `images` and `flops`, then the two spatial maps in SACT mode. -/
def exportKeys (eps : EndPoints) (sact : Bool) : List String :=
  ((epScopes eps).flatMap (fun s =>
    [s ++ "/ponder_cost", s ++ "/num_units", s ++ "/halting_distribution",
     s ++ "/flops"]))
  ++ ["images", "flops"]
  ++ (if sact then ["ponder_cost_map", "num_units_map"] else [])

/-- The tensor exported under a given key by `export_to_h5`. -/
def exportTensor (eps : EndPoints) (images : Tensor) (sact : Bool)
    (k : String) : Tensor :=
  if k = "images" then images
  else if sact ∧ k = "ponder_cost_map" then sact_map_core eps "ponder_cost"
  else if sact ∧ k = "num_units_map" then sact_map_core eps "num_units"
  else epTensor eps k

/-- The observable effects of `export_to_h5`: the HDF5 datasets created (one
per key, with the leading dimension replaced by `num_samples`), and the
record writes performed by the evaluation loop — `none` when the
batch-divisibility assertion fires before the loop, otherwise one entry per
batch listing, for every dataset key, the written record range
`[i * batch_size, (i+1) * batch_size)`. -/
structure ExportRun where
  datasets : List (String × List ℕ)
  writes : Option (List (List (String × ℕ × ℕ)))

/-- `export_to_h5` from `resnet_act_utils.py` (checkpoint restoration and the
TensorFlow session are external; the dataset creation, the
`assert num_samples % batch_size == 0` check and the batched write loop are
modelled). -/
def export_to_h5 (eps : EndPoints) (images : Tensor) (sact : Bool)
    (num_samples batch_size : ℕ) : ExportRun :=
  let keys := exportKeys eps sact
  let datasets := keys.map (fun k =>
    (k, num_samples :: (exportTensor eps images sact k).shape.tail))
  if num_samples % batch_size = 0 then
    let num_batches := num_samples / batch_size
    ⟨datasets, some ((List.range num_batches).map (fun i =>
      keys.map (fun k => (k, i * batch_size, (i + 1) * batch_size))))⟩
  else
    ⟨datasets, none⟩

/-- A concrete sample environment for witnesses. -/
def envW : TFEnv :=
  ⟨fun _ t => t, fun _ _ t => (t, 1), fun q => q, fun q => q,
   fun t _ => (tmean t, 0)⟩

/-- A concrete sample controller module for witnesses. -/
def actmW : ActModule :=
  ⟨fun net _ _ _ => ⟨tJunk, tJunk, 2, tJunk, net⟩,
   fun net _ _ _ => ⟨tJunk, tJunk, 3, tJunk, net⟩,
   fun net _ _ _ => ⟨tJunk, tJunk, 5, tJunk, net⟩⟩

/-- A concrete two-unit block for witnesses. -/
def blkW : Block :=
  ⟨"b1", [0, 1], fun t a _ => (tmap (fun q => q + (a : ℚ)) t, 7)⟩

/-- A concrete input-image tensor for witnesses: one 2x3 RGB image. -/
def imgW : Tensor := ⟨[1, 2, 3, 3], fun _ => 1⟩

/-- A concrete end-points mapping holding only the inputs, for witnesses. -/
def epsW : EndPoints := [("inputs", EPVal.tensor imgW)]

/-- Scope-name hygiene for a block list: no block scope collides with one of
the global end-point keys. -/
def GoodScopes (blocks : List Block) : Prop :=
  ∀ b ∈ blocks, b.scope ≠ "flops" ∧ b.scope ≠ "block_scopes" ∧
    b.scope ≠ "block_num_units" ∧ b.scope ≠ "inputs"

theorem getLastAppend (s u : String) (h : u.data ≠ []) :
    (s ++ u).data.getLast? = u.data.getLast? := by
  rw [String.data_append]
  exact List.getLast?_append_of_ne_nil _ h

theorem neAppendOfLengthLt (name u : String) (h : name.length < u.length) :
    ∀ s : String, name ≠ s ++ u := by
  intro s he
  have hl : name.length = (s ++ u).length := by rw [he]
  rw [String.length_append] at hl
  omega

theorem neOfLastChar (s t : String) (c d : Char) (hc : s.data.getLast? = some c)
    (hd : t.data.getLast? = some d) (hcd : c ≠ d) : s ≠ t := by
  intro he
  rw [he, hd] at hc
  exact hcd (Option.some.inj hc).symm

theorem neOfMemNotMem (s t : String) (c : Char) (hc : c ∈ s.data)
    (hd : c ∉ t.data) : s ≠ t := by
  intro he
  rw [he] at hc
  exact hd hc

theorem memDataAppendRight (s u : String) (c : Char) (h : c ∈ u.data) :
    c ∈ (s ++ u).data := by
  rw [String.data_append]
  exact List.mem_append_right _ h

theorem lookup_setEP_self (eps : EndPoints) (k : String) (v : EPVal) :
    List.lookup k (setEP eps k v) = some v := by
  induction eps with
  | nil => simp [setEP, List.lookup]
  | cons p rest ih =>
    simp only [setEP]
    by_cases h : p.1 = k
    · rw [if_pos h]
      simp [List.lookup]
    · rw [if_neg h]
      have hb : (k == p.1) = false := beq_eq_false_iff_ne.mpr (fun he => h he.symm)
      simp [List.lookup, hb, ih]

theorem lookup_setEP_ne (eps : EndPoints) (k k' : String) (v : EPVal)
    (h : k ≠ k') : List.lookup k (setEP eps k' v) = List.lookup k eps := by
  have hb : (k == k') = false := beq_eq_false_iff_ne.mpr h
  induction eps with
  | nil => simp [setEP, List.lookup, hb]
  | cons p rest ih =>
    simp only [setEP]
    by_cases hp : p.1 = k'
    · rw [if_pos hp]
      subst hp
      simp [List.lookup, hb]
    · rw [if_neg hp]
      cases hkp : k == p.1 <;> simp [List.lookup, hkp, ih]

theorem isSome_lookup_setEP (eps : EndPoints) (k k' : String) (v : EPVal)
    (h : (List.lookup k eps).isSome = true) :
    (List.lookup k (setEP eps k' v)).isSome = true := by
  by_cases hk : k = k'
  · rw [hk, lookup_setEP_self]; rfl
  · rw [lookup_setEP_ne eps k k' v hk]; exact h

theorem foldlAddEq (l : List String) (f : String → ℚ) (a : ℚ) :
    l.foldl (fun acc x => acc + f x) a = a + (l.map f).sum := by
  induction l generalizing a with
  | nil => simp
  | cons x xs ih =>
    simp only [List.foldl, List.map, List.sum_cons]
    rw [ih]
    ring

theorem unit_act_skip (env : TFEnv) (block : Block) (inputs : Tensor)
    (unit_idx : ℕ) (sact : Bool) (residual_mask : Option Tensor) :
    unit_act env block inputs unit_idx true sact residual_mask =
      ((block.unit_fn inputs (block.args.getD unit_idx 0) residual_mask).1,
       none,
       (block.unit_fn inputs (block.args.getD unit_idx 0) residual_mask).2) := by
  simp [unit_act]

theorem static_fold_eq (env : TFEnv) (b : Block) (l : List ℕ)
    (p : Tensor × ℚ) :
    l.foldl
      (fun (p : Tensor × ℚ) i =>
        let u := unit_act env b p.1 i true false none
        (u.1, p.2 + u.2.2)) p =
    l.foldl
      (fun (p : Tensor × ℚ) i =>
        let r := b.unit_fn p.1 (b.args.getD i 0) none
        (r.1, p.2 + r.2)) p := by
  induction l generalizing p with
  | nil => rfl
  | cons x xs ih =>
    simp only [List.foldl]
    rw [unit_act_skip]
    exact ih _

theorem stack_blocks_loop_static (env : TFEnv) (actm : ActModule)
    (act_early_stopping sact : Bool) (blocks : List Block) (net : Tensor)
    (eps : EndPoints) :
    stack_blocks_loop env actm false act_early_stopping sact net blocks eps =
      staticStack net blocks eps := by
  induction blocks generalizing net eps with
  | nil => rfl
  | cons b rest ih =>
    simp only [stack_blocks_loop, staticStack, Bool.false_eq_true, if_false,
      staticBlockRun]
    rw [static_fold_eq]
    exact ih _ _

theorem lookup_staticStack_ne (k : String) (blocks : List Block)
    (hkf : k ≠ "flops")
    (h : ∀ b ∈ blocks, k ≠ b.scope ++ "/flops" ∧ k ≠ b.scope) :
    ∀ (net : Tensor) (eps : EndPoints),
      List.lookup k (staticStack net blocks eps).2 = List.lookup k eps := by
  induction blocks with
  | nil => intro net eps; rfl
  | cons b rest ih =>
    intro net eps
    simp only [staticStack]
    rw [ih (fun b' hb' => h b' (List.mem_cons_of_mem _ hb')),
        lookup_setEP_ne _ _ _ _ (h b (List.mem_cons_self _ _)).2,
        lookup_setEP_ne _ _ _ _ hkf,
        lookup_setEP_ne _ _ _ _ (h b (List.mem_cons_self _ _)).1]

theorem lookup_loop_act_ne (env : TFEnv) (actm : ActModule)
    (act_early_stopping sact : Bool) (k : String) (blocks : List Block)
    (hkf : k ≠ "flops")
    (h : ∀ b ∈ blocks, k ≠ b.scope ++ "/ponder_cost" ∧
      k ≠ b.scope ++ "/num_units" ∧ k ≠ b.scope ++ "/halting_distribution" ∧
      k ≠ b.scope ++ "/flops" ∧ k ≠ b.scope) :
    ∀ (net : Tensor) (eps : EndPoints),
      List.lookup k
        (stack_blocks_loop env actm true act_early_stopping sact net blocks eps).2
        = List.lookup k eps := by
  induction blocks with
  | nil => intro net eps; rfl
  | cons b rest ih =>
    intro net eps
    have hb := h b (List.mem_cons_self _ _)
    simp only [stack_blocks_loop, if_true]
    rw [ih (fun b' hb' => h b' (List.mem_cons_of_mem _ hb')),
        lookup_setEP_ne _ _ _ _ hb.2.2.2.2,
        lookup_setEP_ne _ _ _ _ hkf,
        lookup_setEP_ne _ _ _ _ hb.2.2.2.1,
        lookup_setEP_ne _ _ _ _ hb.2.2.1,
        lookup_setEP_ne _ _ _ _ hb.2.1,
        lookup_setEP_ne _ _ _ _ hb.1]

theorem stack_blocks_loop_act_net (env : TFEnv) (actm : ActModule)
    (act_early_stopping sact : Bool) (blocks : List Block) :
    ∀ (net : Tensor) (eps : EndPoints),
      (stack_blocks_loop env actm true act_early_stopping sact net blocks eps).1
        = actThread env actm act_early_stopping sact net blocks := by
  induction blocks with
  | nil => intro net eps; rfl
  | cons b rest ih =>
    intro net eps
    simp only [stack_blocks_loop, if_true, actThread]
    exact ih _ _

theorem flops_ne_suffixed (s : String) :
    "flops" ≠ s ++ "/ponder_cost" ∧ "flops" ≠ s ++ "/num_units" ∧
    "flops" ≠ s ++ "/halting_distribution" ∧ "flops" ≠ s ++ "/flops" :=
  ⟨neAppendOfLengthLt "flops" "/ponder_cost" (by decide) s,
   neAppendOfLengthLt "flops" "/num_units" (by decide) s,
   neAppendOfLengthLt "flops" "/halting_distribution" (by decide) s,
   neAppendOfLengthLt "flops" "/flops" (by decide) s⟩

theorem lookup_flops_loop_act (env : TFEnv) (actm : ActModule)
    (act_early_stopping sact : Bool) (blocks : List Block)
    (hg : GoodScopes blocks) :
    ∀ (net : Tensor) (eps : EndPoints) (q : ℚ),
      List.lookup "flops" eps = some (EPVal.num q) →
      List.lookup "flops"
        (stack_blocks_loop env actm true act_early_stopping sact net blocks eps).2
        = some (EPVal.num
            (q + (actFlopsList env actm act_early_stopping sact net blocks).sum)) := by
  induction blocks with
  | nil =>
    intro net eps q hq
    simp only [stack_blocks_loop, actFlopsList, List.sum_nil, add_zero]
    exact hq
  | cons b rest ih =>
    intro net eps q hq
    have hgb := hg b (List.mem_cons_self _ _)
    have hne := flops_ne_suffixed b.scope
    simp only [stack_blocks_loop, if_true, actFlopsList]
    rw [ih (fun b' hb' => hg b' (List.mem_cons_of_mem _ hb'))]
    · rw [List.sum_cons, ← add_assoc]
    · rw [lookup_setEP_ne _ _ _ _ (Ne.symm hgb.1), lookup_setEP_self]
      simp only [epGetFlops]
      rw [lookup_setEP_ne _ _ _ _ hne.2.2.2,
          lookup_setEP_ne _ _ _ _ hne.2.2.1,
          lookup_setEP_ne _ _ _ _ hne.2.1,
          lookup_setEP_ne _ _ _ _ hne.1, hq]

theorem isSome_lookup_loop_act (env : TFEnv) (actm : ActModule)
    (act_early_stopping sact : Bool) (blocks : List Block) (k : String) :
    ∀ (net : Tensor) (eps : EndPoints),
      (List.lookup k eps).isSome = true →
      (List.lookup k
        (stack_blocks_loop env actm true act_early_stopping sact net blocks eps).2).isSome
        = true := by
  induction blocks with
  | nil => intro net eps h; exact h
  | cons b rest ih =>
    intro net eps h
    simp only [stack_blocks_loop, if_true]
    exact ih _ _ (isSome_lookup_setEP _ _ _ _ (isSome_lookup_setEP _ _ _ _
      (isSome_lookup_setEP _ _ _ _ (isSome_lookup_setEP _ _ _ _
        (isSome_lookup_setEP _ _ _ _ (isSome_lookup_setEP _ _ _ _ h))))))

theorem loop_act_sets_keys (env : TFEnv) (actm : ActModule)
    (act_early_stopping sact : Bool) (blocks : List Block) (b : Block)
    (hb : b ∈ blocks) :
    ∀ (net : Tensor) (eps : EndPoints),
      ((List.lookup (b.scope ++ "/ponder_cost")
        (stack_blocks_loop env actm true act_early_stopping sact net blocks eps).2).isSome
          = true) ∧
      ((List.lookup (b.scope ++ "/num_units")
        (stack_blocks_loop env actm true act_early_stopping sact net blocks eps).2).isSome
          = true) ∧
      ((List.lookup (b.scope ++ "/halting_distribution")
        (stack_blocks_loop env actm true act_early_stopping sact net blocks eps).2).isSome
          = true) ∧
      ((List.lookup (b.scope ++ "/flops")
        (stack_blocks_loop env actm true act_early_stopping sact net blocks eps).2).isSome
          = true) := by
  induction blocks with
  | nil => cases hb
  | cons b' rest ih =>
    intro net eps
    rcases List.mem_cons.mp hb with hbe | hbm
    · subst hbe
      simp only [stack_blocks_loop, if_true]
      refine ⟨isSome_lookup_loop_act _ _ _ _ _ _ _ _ ?_,
              isSome_lookup_loop_act _ _ _ _ _ _ _ _ ?_,
              isSome_lookup_loop_act _ _ _ _ _ _ _ _ ?_,
              isSome_lookup_loop_act _ _ _ _ _ _ _ _ ?_⟩
      · exact isSome_lookup_setEP _ _ _ _ (isSome_lookup_setEP _ _ _ _
          (isSome_lookup_setEP _ _ _ _ (isSome_lookup_setEP _ _ _ _
            (isSome_lookup_setEP _ _ _ _ (by rw [lookup_setEP_self]; rfl)))))
      · exact isSome_lookup_setEP _ _ _ _ (isSome_lookup_setEP _ _ _ _
          (isSome_lookup_setEP _ _ _ _ (isSome_lookup_setEP _ _ _ _
            (by rw [lookup_setEP_self]; rfl))))
      · exact isSome_lookup_setEP _ _ _ _ (isSome_lookup_setEP _ _ _ _
          (isSome_lookup_setEP _ _ _ _ (by rw [lookup_setEP_self]; rfl)))
      · exact isSome_lookup_setEP _ _ _ _ (isSome_lookup_setEP _ _ _ _
          (by rw [lookup_setEP_self]; rfl))
    · simp only [stack_blocks_loop, if_true]
      exact ih hbm _ _

/-- Claim C1: in `unit_act`, the call on the last unit of a block
(`unit_idx = len(block.args) - 1`) never invokes a halting-probability
estimator — its result is assembled from `block.unit_fn` alone, with
`halting_proba = None`, regardless of the `sact` flag and of
`skip_halting_proba` — while every earlier unit index with
`skip_halting_proba = False` computes and returns a halting probability
tensor (the convolutional estimator when `sact` is set, the global estimator
otherwise). -/
theorem unit_act_last_unit_no_halting (env : TFEnv) (block : Block)
    (inputs : Tensor) (skip_halting_proba sact : Bool)
    (residual_mask : Option Tensor) (hlen : 0 < block.args.length) :
    unit_act env block inputs (block.args.length - 1) skip_halting_proba sact
        residual_mask =
      ((block.unit_fn inputs (block.args.getD (block.args.length - 1) 0)
          residual_mask).1,
       none,
       (block.unit_fn inputs (block.args.getD (block.args.length - 1) 0)
          residual_mask).2) ∧
    (∀ unit_idx, unit_idx < block.args.length - 1 →
      (unit_act env block inputs unit_idx false sact residual_mask).2.1 =
        some (if sact then
          (get_halting_proba_conv env
            (block.unit_fn inputs (block.args.getD unit_idx 0)
              residual_mask).1 none).1
        else
          (get_halting_proba env
            (block.unit_fn inputs (block.args.getD unit_idx 0)
              residual_mask).1).1)) := by
  constructor
  · simp [unit_act]
  · intro unit_idx hidx
    cases sact with
    | false => simp [unit_act, hidx]
    | true => simp [unit_act, hidx]

/-- Witness for C1: a concrete two-unit block; the last unit (index 1)
returns no halting probability, the first (index 0) returns one. -/
theorem unit_act_last_unit_no_halting_witness :
    (unit_act envW blkW tJunk (blkW.args.length - 1) false false none).2.1 = none ∧
    (unit_act envW blkW tJunk 0 false false none).2.1 =
      some (get_halting_proba envW
        (blkW.unit_fn tJunk (blkW.args.getD 0 0) none).1).1 := by
  have h := unit_act_last_unit_no_halting envW blkW tJunk false false none
    (by decide)
  constructor
  · rw [h.1]
  · have h2 := h.2 0 (by decide)
    simpa using h2

/-- Claim C2: `get_halting_proba` spatially average-pools the activation to
1x1, batch-normalizes it, applies a 1x1 convolution with a single output
channel, sigmoid activation and bias initialized to the constant -3, and
returns the resulting probability together with the FLOP cost of that
convolution — it coincides with the estimator written directly from the
spec's description. -/
theorem get_halting_proba_matches_spec (env : TFEnv) (outputs : Tensor) :
    get_halting_proba env outputs = specGlobalHaltingProba env outputs := rfl

/-- Claim C3: `get_halting_proba_conv` computes a local halting logit by a
kernel-size-3 convolution over batch-normalized local features with bias
initialized to -3 and the residual mask as output mask, a global halting
logit by global average pooling, batch normalization and a bias-free 1x1
convolution, sums the two logits with spatial broadcasting and applies a
sigmoid (coinciding with the spec-side definition); and its call site in
`unit_act` with `sact = True` invokes it on the unit's output. -/
theorem get_halting_proba_conv_matches_spec :
    (∀ (env : TFEnv) (outputs : Tensor) (residual_mask : Option Tensor),
      get_halting_proba_conv env outputs residual_mask =
        specConvHaltingProba env outputs residual_mask) ∧
    (∀ (env : TFEnv) (block : Block) (inputs : Tensor) (unit_idx : ℕ)
      (residual_mask : Option Tensor), unit_idx < block.args.length - 1 →
      (unit_act env block inputs unit_idx false true residual_mask).2.1 =
        some ((get_halting_proba_conv env
          (block.unit_fn inputs (block.args.getD unit_idx 0)
            residual_mask).1 none).1)) := by
  constructor
  · intro env outputs residual_mask
    simp only [get_halting_proba_conv, specConvHaltingProba, SACT_KERNEL_SIZE,
      INIT_BIAS, zero_add]
  · intro env block inputs unit_idx residual_mask hidx
    simp [unit_act, hidx]

/-- Witness for C3: the estimator equality at a concrete input, and the
`sact = True` call site on the first unit of a concrete two-unit block. -/
theorem get_halting_proba_conv_matches_spec_witness :
    get_halting_proba_conv envW imgW none = specConvHaltingProba envW imgW none ∧
    (unit_act envW blkW tJunk 0 false true none).2.1 =
      some ((get_halting_proba_conv envW
        (blkW.unit_fn tJunk (blkW.args.getD 0 0) none).1 none).1) :=
  ⟨get_halting_proba_conv_matches_spec.1 envW imgW none,
   get_halting_proba_conv_matches_spec.2 envW blkW tJunk 0 none (by decide)⟩

/-- Claim C4: with `use_act = False`, `stack_blocks` coincides with the
spec-side static stacking that runs every unit of every block
unconditionally in sequence (halting probability never computed) and sums
the units' FLOPs into the block's flops entry; the `block_num_units` entry
records the full unit count N of every block, and no per-block
`ponder_cost` entry exists in the resulting end-points mapping. -/
theorem stack_blocks_static_spec (env : TFEnv) (actm : ActModule)
    (net : Tensor) (blocks : List Block) (act_early_stopping sact : Bool)
    (hg : GoodScopes blocks)
    (hscope : ∀ b ∈ blocks, ∀ s : String, b.scope ≠ s ++ "/ponder_cost") :
    stack_blocks env actm net blocks false act_early_stopping sact none =
      staticStack net blocks
        [("flops", EPVal.num 0),
         ("block_scopes", EPVal.strs (blocks.map Block.scope)),
         ("block_num_units", EPVal.nats (blocks.map (fun b => b.args.length)))] ∧
    List.lookup "block_num_units"
        (stack_blocks env actm net blocks false act_early_stopping sact none).2
      = some (EPVal.nats (blocks.map (fun b => b.args.length))) ∧
    (∀ s : String,
      List.lookup (s ++ "/ponder_cost")
        (stack_blocks env actm net blocks false act_early_stopping sact none).2
        = none) := by
  have hstack : stack_blocks env actm net blocks false act_early_stopping sact none
      = stack_blocks_loop env actm false act_early_stopping sact net blocks
          [("flops", EPVal.num 0),
           ("block_scopes", EPVal.strs (blocks.map Block.scope)),
           ("block_num_units", EPVal.nats (blocks.map (fun b => b.args.length)))] :=
    rfl
  have hmain : stack_blocks env actm net blocks false act_early_stopping sact none
      = staticStack net blocks
          [("flops", EPVal.num 0),
           ("block_scopes", EPVal.strs (blocks.map Block.scope)),
           ("block_num_units", EPVal.nats (blocks.map (fun b => b.args.length)))] := by
    rw [hstack, stack_blocks_loop_static]
  refine ⟨hmain, ?_, ?_⟩
  · rw [hmain]
    rw [lookup_staticStack_ne "block_num_units" blocks (by decide) ?h]
    case h =>
      intro b hb
      have hdist := hg b hb
      constructor
      · exact (neOfMemNotMem (b.scope ++ "/flops") "block_num_units" '/'
          (memDataAppendRight b.scope "/flops" '/' (by decide)) (by decide)).symm
      · exact (hdist.2.2.1).symm
    have f1 : ("block_num_units" == "flops") = false := by decide
    have f2 : ("block_num_units" == "block_scopes") = false := by decide
    simp [List.lookup, f1, f2]
  · intro s
    rw [hmain]
    rw [lookup_staticStack_ne (s ++ "/ponder_cost") blocks
      (neAppendOfLengthLt "flops" "/ponder_cost" (by decide) s).symm ?hpc]
    case hpc =>
      intro b hb
      constructor
      · intro he
        have h1 : (s ++ "/ponder_cost").data.getLast? = some 't' := by
          rw [getLastAppend _ _ (by decide)]
          decide
        rw [he, getLastAppend _ _ (by decide)] at h1
        simp at h1
      · exact fun he => hscope b hb s he.symm
    have e1 : ((s ++ "/ponder_cost") == "flops") = false :=
      beq_eq_false_iff_ne.mpr
        (neAppendOfLengthLt "flops" "/ponder_cost" (by decide) s).symm
    have e2 : ((s ++ "/ponder_cost") == "block_scopes") = false :=
      beq_eq_false_iff_ne.mpr
        (neOfMemNotMem (s ++ "/ponder_cost") "block_scopes" '/'
          (memDataAppendRight s "/ponder_cost" '/' (by decide)) (by decide))
    have e3 : ((s ++ "/ponder_cost") == "block_num_units") = false :=
      beq_eq_false_iff_ne.mpr
        (neOfMemNotMem (s ++ "/ponder_cost") "block_num_units" '/'
          (memDataAppendRight s "/ponder_cost" '/' (by decide)) (by decide))
    simp [List.lookup, e1, e2, e3]

/-- Witness for C4: a concrete one-block network in static mode; the result
agrees with the spec-side static stack and has no ponder-cost entry. -/
theorem stack_blocks_static_spec_witness :
    stack_blocks envW actmW tJunk [blkW] false false false none =
      staticStack tJunk [blkW]
        [("flops", EPVal.num 0),
         ("block_scopes", EPVal.strs ([blkW].map Block.scope)),
         ("block_num_units", EPVal.nats ([blkW].map (fun b => b.args.length)))] ∧
    List.lookup ("b1" ++ "/ponder_cost")
        (stack_blocks envW actmW tJunk [blkW] false false false none).2 = none := by
  have h := stack_blocks_static_spec envW actmW tJunk [blkW] false false
    (by
      intro b hb
      rw [List.mem_singleton] at hb
      subst hb
      exact ⟨by decide, by decide, by decide, by decide⟩)
    (by
      intro b hb s
      rw [List.mem_singleton] at hb
      subst hb
      exact neAppendOfLengthLt "b1" "/ponder_cost" (by decide) s)
  exact ⟨h.1, h.2.2 "b1"⟩

/-- Claim C5 (amended): with ACT enabled and a fresh end-points mapping,
`stack_blocks` produces `block_scopes` (the scope names in input order),
`block_num_units` (the unit counts in the same order), for every block scope
S the keys `S/ponder_cost`, `S/num_units`, `S/flops` and
`S/halting_distribution`, and a `flops` entry equal to the sum over all
blocks of their per-block flops; each block's output is threaded as the next
block's input.  The `inputs` key is NOT added by `stack_blocks` itself: it is
present in the result exactly as it is present in the end-points mapping
supplied by the caller. -/
theorem stack_blocks_act_end_points (env : TFEnv) (actm : ActModule)
    (net : Tensor) (blocks : List Block) (act_early_stopping sact : Bool)
    (hg : GoodScopes blocks) :
    List.lookup "block_scopes"
        (stack_blocks env actm net blocks true act_early_stopping sact none).2
      = some (EPVal.strs (blocks.map Block.scope)) ∧
    List.lookup "block_num_units"
        (stack_blocks env actm net blocks true act_early_stopping sact none).2
      = some (EPVal.nats (blocks.map (fun b => b.args.length))) ∧
    (∀ b ∈ blocks,
      ((List.lookup (b.scope ++ "/ponder_cost")
        (stack_blocks env actm net blocks true act_early_stopping sact none).2).isSome
          = true) ∧
      ((List.lookup (b.scope ++ "/num_units")
        (stack_blocks env actm net blocks true act_early_stopping sact none).2).isSome
          = true) ∧
      ((List.lookup (b.scope ++ "/halting_distribution")
        (stack_blocks env actm net blocks true act_early_stopping sact none).2).isSome
          = true) ∧
      ((List.lookup (b.scope ++ "/flops")
        (stack_blocks env actm net blocks true act_early_stopping sact none).2).isSome
          = true)) ∧
    List.lookup "flops"
        (stack_blocks env actm net blocks true act_early_stopping sact none).2
      = some (EPVal.num
          ((actFlopsList env actm act_early_stopping sact net blocks).sum)) ∧
    (stack_blocks env actm net blocks true act_early_stopping sact none).1
      = actThread env actm act_early_stopping sact net blocks ∧
    (∀ end_points0 : Option EndPoints,
      List.lookup "inputs"
          (stack_blocks env actm net blocks true act_early_stopping sact
            end_points0).2
        = List.lookup "inputs" (end_points0.getD [])) := by
  have hstack : stack_blocks env actm net blocks true act_early_stopping sact none
      = stack_blocks_loop env actm true act_early_stopping sact net blocks
          [("flops", EPVal.num 0),
           ("block_scopes", EPVal.strs (blocks.map Block.scope)),
           ("block_num_units", EPVal.nats (blocks.map (fun b => b.args.length)))] :=
    rfl
  have hsuffix : ∀ (k : String), '/' ∉ k.data → k ≠ "flops" →
      (∀ b ∈ blocks, b.scope ≠ k) →
      ∀ b ∈ blocks, k ≠ b.scope ++ "/ponder_cost" ∧
        k ≠ b.scope ++ "/num_units" ∧ k ≠ b.scope ++ "/halting_distribution" ∧
        k ≠ b.scope ++ "/flops" ∧ k ≠ b.scope := by
    intro k hk hkf hsc b hb
    refine ⟨?_, ?_, ?_, ?_, fun he => hsc b hb he.symm⟩
    · exact (neOfMemNotMem _ k '/'
        (memDataAppendRight b.scope "/ponder_cost" '/' (by decide)) hk).symm
    · exact (neOfMemNotMem _ k '/'
        (memDataAppendRight b.scope "/num_units" '/' (by decide)) hk).symm
    · exact (neOfMemNotMem _ k '/'
        (memDataAppendRight b.scope "/halting_distribution" '/' (by decide)) hk).symm
    · exact (neOfMemNotMem _ k '/'
        (memDataAppendRight b.scope "/flops" '/' (by decide)) hk).symm
  refine ⟨?_, ?_, ?_, ?_, ?_, ?_⟩
  · rw [hstack, lookup_loop_act_ne env actm act_early_stopping sact
      "block_scopes" blocks (by decide)
      (hsuffix "block_scopes" (by decide) (by decide)
        (fun b hb => (hg b hb).2.1))]
    have f1 : ("block_scopes" == "flops") = false := by decide
    simp [List.lookup, f1]
  · rw [hstack, lookup_loop_act_ne env actm act_early_stopping sact
      "block_num_units" blocks (by decide)
      (hsuffix "block_num_units" (by decide) (by decide)
        (fun b hb => (hg b hb).2.2.1))]
    have f1 : ("block_num_units" == "flops") = false := by decide
    have f2 : ("block_num_units" == "block_scopes") = false := by decide
    simp [List.lookup, f1, f2]
  · intro b hb
    rw [hstack]
    exact loop_act_sets_keys env actm act_early_stopping sact blocks b hb _ _
  · rw [hstack, lookup_flops_loop_act env actm act_early_stopping sact blocks hg
      net _ 0 (by rfl)]
    rw [zero_add]
  · rw [hstack]
    exact stack_blocks_loop_act_net env actm act_early_stopping sact blocks _ _
  · intro end_points0
    show List.lookup "inputs"
        (stack_blocks_loop env actm true act_early_stopping sact net blocks
          (setEP (setEP (setEP (end_points0.getD []) "flops"
            (EPVal.num (epGetFlops (end_points0.getD []))))
            "block_scopes" (EPVal.strs (blocks.map Block.scope)))
            "block_num_units"
            (EPVal.nats (blocks.map (fun b => b.args.length))))).2
      = List.lookup "inputs" (end_points0.getD [])
    rw [lookup_loop_act_ne env actm act_early_stopping sact "inputs" blocks
      (by decide)
      (hsuffix "inputs" (by decide) (by decide)
        (fun b hb => (hg b hb).2.2.2)),
      lookup_setEP_ne _ _ _ _ (by decide),
      lookup_setEP_ne _ _ _ _ (by decide),
      lookup_setEP_ne _ _ _ _ (by decide)]

/-- Counterexample to C5 as stated: for a concrete `stack_blocks` call with
ACT enabled (and the default fresh end-points mapping), the produced
end-points mapping contains no network-level `inputs` key — that key is only
ever written by the caller, never by `stack_blocks`. -/
theorem stack_blocks_act_no_inputs_key :
    List.lookup "inputs"
      (stack_blocks envW actmW tJunk [blkW] true false false none).2 = none := by
  rfl

/-- Witness for C5 (amended) at a concrete one-block network. -/
theorem stack_blocks_act_end_points_witness :
    List.lookup "block_scopes"
        (stack_blocks envW actmW tJunk [blkW] true false false none).2
      = some (EPVal.strs ["b1"]) ∧
    ((List.lookup ("b1" ++ "/ponder_cost")
        (stack_blocks envW actmW tJunk [blkW] true false false none).2).isSome
      = true) ∧
    List.lookup "inputs"
        (stack_blocks envW actmW tJunk [blkW] true false false
          (some [("inputs", EPVal.tensor imgW)])).2
      = List.lookup "inputs" ((some [("inputs", EPVal.tensor imgW)]).getD []) := by
  have h := stack_blocks_act_end_points envW actmW tJunk [blkW] false false
    (by
      intro b hb
      rw [List.mem_singleton] at hb
      subst hb
      exact ⟨by decide, by decide, by decide, by decide⟩)
  exact ⟨h.1, (h.2.2.1 blkW (List.mem_singleton.mpr rfl)).1,
    h.2.2.2.2.2 (some [("inputs", EPVal.tensor imgW)])⟩

/-- Claim C6: `add_all_ponder_costs` adds exactly one value to the loss
collection, equal to `weights` times the sum, over every scope listed in
`block_scopes`, of the mean of that scope's per-element ponder cost. -/
theorem add_all_ponder_costs_spec (eps : EndPoints) (weights : ℚ)
    (losses : List ℚ) :
    add_all_ponder_costs eps weights losses =
      losses ++ [weights * ((epScopes eps).map
        (fun scope => tmean (epTensor eps (scope ++ "/ponder_cost")))).sum] ∧
    (add_all_ponder_costs eps weights losses).length = losses.length + 1 := by
  constructor
  · unfold add_all_ponder_costs
    rw [foldlAddEq, zero_add, mul_comm]
  · unfold add_all_ponder_costs
    simp

theorem concatWidth_reduce (a b : Tensor) (n h w1 c n2 h2 w2 c2 : ℕ)
    (ha : a.shape = [n, h, w1, c]) (hb : b.shape = [n2, h2, w2, c2]) :
    (concatWidth a b).shape = [n, h, w1 + w2, c] ∧
    (∀ i y x ch, (concatWidth a b).data [i, y, x, ch] =
      if x < w1 then a.data [i, y, x, ch] else b.data [i, y, x - w1, ch]) := by
  constructor
  · simp [concatWidth, ha, hb]
  · intro i y x ch
    simp [concatWidth, ha, hb]

theorem heatmapImages_some (eps : EndPoints) (n : ℕ) (normalize_images : Bool)
    (img : Tensor) (hin : List.lookup "inputs" eps = some (EPVal.tensor img)) :
    heatmapImages eps (some n) normalize_images =
      if normalize_images then normalizeImages (sliceBatch n img)
      else sliceBatch n img := by
  unfold heatmapImages epTensor
  rw [hin]

theorem heatmapImages_shape (eps : EndPoints) (n bsize hgt wdt : ℕ)
    (normalize_images : Bool) (img : Tensor)
    (hin : List.lookup "inputs" eps = some (EPVal.tensor img))
    (hsh : img.shape = [bsize, hgt, wdt, 3]) (hn : n ≤ bsize) :
    (heatmapImages eps (some n) normalize_images).shape = [n, hgt, wdt, 3] := by
  rw [heatmapImages_some eps n normalize_images img hin]
  cases normalize_images <;>
    simp [normalizeImages, sliceBatch, hsh, Nat.min_eq_left hn]

/-- Claim C7: for an end-points mapping whose `inputs` images have shape
`(bsize, hgt, wdt, 3)` and a metric name in `{ponder_cost, num_units}`,
`sact_image_heatmap` succeeds and returns a tensor of shape
`(n, hgt, wdt * 2 + border, 3)` consisting of the (optionally normalized)
original images, a zero-filled border of the given width, and the images
with the nearest-neighbor-upsampled heatmap sum overlaid, concatenated along
the width axis. -/
theorem sact_image_heatmap_spec (eps : EndPoints) (metric_name : String)
    (n bsize hgt wdt : ℕ) (img : Tensor) (alpha : ℚ) (border : ℕ)
    (normalize_images : Bool)
    (hm : metric_name = "ponder_cost" ∨ metric_name = "num_units")
    (hin : List.lookup "inputs" eps = some (EPVal.tensor img))
    (hsh : img.shape = [bsize, hgt, wdt, 3])
    (hn : n ≤ bsize) :
    ∃ t, sact_image_heatmap eps metric_name (some n) alpha border
        normalize_images = Except.ok t ∧
      t.shape = [n, hgt, 2 * wdt + border, 3] ∧
      (∀ i y x ch, x < wdt → t.data [i, y, x, ch] =
        (heatmapImages eps (some n) normalize_images).data [i, y, x, ch]) ∧
      (∀ i y x ch, wdt ≤ x → x < wdt + border → t.data [i, y, x, ch] = 0) ∧
      (∀ i y x ch, wdt + border ≤ x → t.data [i, y, x, ch] =
        (heatmapImages eps (some n) normalize_images).data
            [i, y, x - (wdt + border), ch] * (1 - alpha)
          + (addN ((epScopes eps).map
              (heatmapFor eps metric_name n [hgt, wdt]))).data
              [i, y, x - (wdt + border), ch]
              * (alpha / heatmapMaxValue eps metric_name)) := by
  have hishape : (heatmapImages eps (some n) normalize_images).shape
      = [n, hgt, wdt, 3] :=
    heatmapImages_shape eps n bsize hgt wdt normalize_images img hin hsh hn
  have hres : heatmapResolution eps (some n) normalize_images = [hgt, wdt] := by
    unfold heatmapResolution
    rw [hishape]
    rfl
  have hnum : heatmapNumImages eps (some n) = n := rfl
  have hbody : sact_image_heatmap_body eps metric_name (some n) alpha border
      normalize_images =
    concatWidth (heatmapImages eps (some n) normalize_images)
      (concatWidth (zerosT [n, hgt, border, 3])
        (tzip
          (fun a b => a * (1 - alpha) +
            b * (alpha / heatmapMaxValue eps metric_name))
          (heatmapImages eps (some n) normalize_images)
          (addN ((epScopes eps).map
            (heatmapFor eps metric_name n [hgt, wdt]))))) := by
    unfold sact_image_heatmap_body
    rw [hres, hnum]
    rfl
  have hinner := concatWidth_reduce (zerosT [n, hgt, border, 3])
    (tzip
      (fun a b => a * (1 - alpha) +
        b * (alpha / heatmapMaxValue eps metric_name))
      (heatmapImages eps (some n) normalize_images)
      (addN ((epScopes eps).map (heatmapFor eps metric_name n [hgt, wdt]))))
    n hgt border 3 n hgt wdt 3 rfl hishape
  have houter := concatWidth_reduce
    (heatmapImages eps (some n) normalize_images)
    (concatWidth (zerosT [n, hgt, border, 3])
      (tzip
        (fun a b => a * (1 - alpha) +
          b * (alpha / heatmapMaxValue eps metric_name))
        (heatmapImages eps (some n) normalize_images)
        (addN ((epScopes eps).map (heatmapFor eps metric_name n [hgt, wdt])))))
    n hgt wdt 3 n hgt (border + wdt) 3 hishape hinner.1
  refine ⟨sact_image_heatmap_body eps metric_name (some n) alpha border
    normalize_images, ?_, ?_, ?_, ?_, ?_⟩
  · unfold sact_image_heatmap
    rw [if_pos hm]
  · rw [hbody, houter.1]
    have harith : wdt + (border + wdt) = 2 * wdt + border := by omega
    rw [harith]
  · intro i y x ch hx
    rw [hbody, houter.2 i y x ch, if_pos hx]
  · intro i y x ch h1 h2
    rw [hbody, houter.2 i y x ch, if_neg (by omega),
      hinner.2 i y (x - wdt) ch, if_pos (by omega)]
    rfl
  · intro i y x ch h1
    rw [hbody, houter.2 i y x ch, if_neg (by omega),
      hinner.2 i y (x - wdt) ch, if_neg (by omega), Nat.sub_sub]
    rfl

/-- Witness for C7: a concrete end-points mapping with one 2x3 input image;
the heatmap succeeds and has shape `(1, 2, 3 * 2 + 5, 3)`. -/
theorem sact_image_heatmap_spec_witness :
    ∃ t, sact_image_heatmap epsW "ponder_cost" (some 1) (3 / 4) 5 true
        = Except.ok t ∧ t.shape = [1, 2, 2 * 3 + 5, 3] := by
  obtain ⟨t, hok, hshape, _⟩ := sact_image_heatmap_spec epsW "ponder_cost"
    1 1 2 3 imgW (3 / 4) 5 true (Or.inl rfl) rfl rfl (by decide)
  exact ⟨t, hok, hshape⟩

/-- Claim C8: for any metric name other than `ponder_cost` or `num_units`,
both `sact_image_heatmap` and `sact_map` fail immediately with an assertion
error, before reading anything from the end-points mapping (the failure is
identical for every end-points mapping). -/
theorem invalid_metric_name_fails (eps eps' : EndPoints) (metric_name : String)
    (num_images : Option ℕ) (alpha : ℚ) (border : ℕ) (normalize_images : Bool)
    (h1 : metric_name ≠ "ponder_cost") (h2 : metric_name ≠ "num_units") :
    sact_image_heatmap eps metric_name num_images alpha border normalize_images
      = Except.error "metric_name must be ponder_cost or num_units" ∧
    sact_map eps metric_name
      = Except.error "metric_name must be ponder_cost or num_units" ∧
    sact_image_heatmap eps metric_name num_images alpha border normalize_images
      = sact_image_heatmap eps' metric_name num_images alpha border
          normalize_images ∧
    sact_map eps metric_name = sact_map eps' metric_name := by
  have hc : ¬(metric_name = "ponder_cost" ∨ metric_name = "num_units") := by
    rintro (h | h)
    · exact h1 h
    · exact h2 h
  refine ⟨?_, ?_, ?_, ?_⟩ <;>
    simp [sact_image_heatmap, sact_map, hc]

/-- Witness for C8: the metric name `num_timesteps` (which the repository's
own test file passes) is rejected by both functions. -/
theorem invalid_metric_name_fails_witness :
    sact_image_heatmap epsW "num_timesteps" (some 3) (3 / 4) 5 true
      = Except.error "metric_name must be ponder_cost or num_units" ∧
    sact_map epsW "num_timesteps"
      = Except.error "metric_name must be ponder_cost or num_units" := by
  have h := invalid_metric_name_fails epsW [] "num_timesteps" (some 3) (3 / 4)
    5 true (by decide) (by decide)
  exact ⟨h.1, h.2.1⟩

/-- Claim C9: `export_to_h5` checks that `batch_size` divides `num_samples`
before the evaluation loop: on failure no records are written; on success it
writes exactly `num_samples / batch_size` batches, each writing a
`batch_size`-sized record range `[i * batch_size, (i+1) * batch_size)` into
every dataset. -/
theorem export_to_h5_batches (eps : EndPoints) (images : Tensor)
    (sact : Bool) (num_samples batch_size : ℕ) (hbs : 0 < batch_size) :
    (¬ batch_size ∣ num_samples →
      (export_to_h5 eps images sact num_samples batch_size).writes = none) ∧
    (batch_size ∣ num_samples →
      ∃ w, (export_to_h5 eps images sact num_samples batch_size).writes
          = some w ∧
        w.length = num_samples / batch_size ∧
        w.length * batch_size = num_samples ∧
        (∀ batch ∈ w, batch.length = (exportKeys eps sact).length ∧
          ∀ e ∈ batch, e.2.2 - e.2.1 = batch_size) ∧
        (∀ i, i < w.length → w[i]? =
          some ((exportKeys eps sact).map
            (fun k => (k, i * batch_size, (i + 1) * batch_size))))) := by
  constructor
  · intro hnd
    have hmod : ¬ num_samples % batch_size = 0 := fun h =>
      hnd (Nat.dvd_iff_mod_eq_zero.mpr h)
    simp [export_to_h5, hmod]
  · intro hd
    have hmod : num_samples % batch_size = 0 :=
      Nat.dvd_iff_mod_eq_zero.mp hd
    refine ⟨(List.range (num_samples / batch_size)).map
      (fun i => (exportKeys eps sact).map
        (fun k => (k, i * batch_size, (i + 1) * batch_size))), ?_, ?_, ?_, ?_, ?_⟩
    · simp [export_to_h5, hmod]
    · simp
    · simp [Nat.div_mul_cancel hd]
    · intro batch hb
      rw [List.mem_map] at hb
      obtain ⟨i, _, hbe⟩ := hb
      subst hbe
      constructor
      · simp
      · intro e he
        rw [List.mem_map] at he
        obtain ⟨k, _, hke⟩ := he
        subst hke
        simp only
        rw [add_mul, one_mul, Nat.add_sub_cancel_left]
    · intro i hi
      simp only [List.length_map, List.length_range] at hi
      rw [List.getElem?_map, List.getElem?_range hi]
      rfl

/-- Witness for C9: with 4 samples and batch size 2 the export writes two
batches; with 5 samples and batch size 2 it writes nothing. -/
theorem export_to_h5_batches_witness :
    (∃ w, (export_to_h5 epsW imgW false 4 2).writes = some w ∧
      w.length = 2) ∧
    (export_to_h5 epsW imgW false 5 2).writes = none := by
  constructor
  · obtain ⟨w, hw, hlen, _⟩ :=
      (export_to_h5_batches epsW imgW false 4 2 (by decide)).2 (by decide)
    exact ⟨w, hw, hlen⟩
  · exact (export_to_h5_batches epsW imgW false 5 2 (by decide)).1 (by decide)

/-- Claim C10: `moments_metric_map` reports the `{name}{delimiter}std` value
as the square root of the maximum of 0 and the computed variance: the
argument handed to the square root is never negative (even if the variance
estimate is), and whenever the external square root maps non-negatives to
non-negatives the reported standard deviation is non-negative. -/
theorem moments_metric_map_std_clamped (env : TFEnv) (x : Tensor)
    (name delimiter : String) (do_shift : Bool) :
    moments_metric_map env x name delimiter do_shift =
      [(name ++ delimiter ++ "mean",
        (env.moments x (if do_shift then some (tmean x) else none)).1),
       (name ++ delimiter ++ "std",
        env.sqrtQ (max 0
          (env.moments x (if do_shift then some (tmean x) else none)).2))] ∧
    0 ≤ max 0 (env.moments x (if do_shift then some (tmean x) else none)).2 ∧
    ((∀ q : ℚ, 0 ≤ q → 0 ≤ env.sqrtQ q) →
      0 ≤ env.sqrtQ (max 0
        (env.moments x (if do_shift then some (tmean x) else none)).2)) :=
  ⟨rfl, le_max_left 0 _, fun h => h _ (le_max_left 0 _)⟩

/-- Witness for C10 at a concrete environment whose square root is the
identity on non-negatives. -/
theorem moments_metric_map_std_clamped_witness :
    0 ≤ envW.sqrtQ (max 0
      (envW.moments imgW (if false then some (tmean imgW) else none)).2) :=
  (moments_metric_map_std_clamped envW imgW "x" "_" false).2.2
    (fun q hq => hq)
